import Mathlib

/-!
Shallow embedding of `compath_utils.manager.CompathManager` (repository
ComPath/compath_utils, file `src/compath_utils/manager.py`), the abstract
enrichment-query manager over a relational store of pathways and proteins.

The backing store (SQLAlchemy session, the concrete pathway/protein models and
their accessors `get_pathways_ids` / `get_gene_set`) lives outside this
repository; it is modelled as explicit data following the backing-store
contract of the specification.  The manager's query methods are translated
line by line from the source.
-/

namespace Compath

/-- A protein row: an HGNC gene symbol, together with the result of the
backing-store accessor `get_pathways_ids()`.
Modelled from the spec: the backing-store contract requires "a Protein entity
type with field `hgnc_symbol` and a method/accessor returning the set of
pathway identifiers it belongs to"; the accessor's result is stored as the
field `pathway_ids`. -/
structure Protein where
  hgnc_symbol : String
  pathway_ids : List String
deriving DecidableEq, Repr

/-- A pathway row: backend identifier, display name, and the member proteins
reached through the ORM relationship `pathway.proteins`. -/
structure Pathway where
  identifier : String
  name : String
  proteins : List Protein
deriving DecidableEq, Repr

/-- The accessor `protein.get_pathways_ids()` of the backing-store contract. -/
def Protein.get_pathways_ids (p : Protein) : List String :=
  p.pathway_ids

/-- Modelled from the spec: the backing-store accessor `pathway.get_gene_set()`,
"pathway_gene_set: set of all HGNC symbols in that pathway". -/
def Pathway.get_gene_set (pw : Pathway) : Finset String :=
  (pw.proteins.map Protein.hgnc_symbol).toFinset

/-- The backing store seen through the session: the pathway table and the
protein table, each in retrieval order. -/
structure Store where
  pathways : List Pathway
  proteins : List Protein
deriving DecidableEq, Repr

/-- Errors the engine can raise at query time.  `multipleResultsFound` models
SQLAlchemy's `one_or_none` failing on a duplicated identifier;
`attributeErrorNone` models the `AttributeError` from calling a method on the
`None` returned by a failed lookup; `notFound` stands for the `NotFoundError`
that the specification names — the code itself never raises it. -/
inductive PyError
  | multipleResultsFound
  | attributeErrorNone
  | notFound
deriving DecidableEq, Repr

/-- The class-level configuration of a concrete manager: whether each of the
three class variables of `CompathManager` was set (is not `None`). -/
structure ManagerConfig where
  pathway_model_set : Bool
  pathway_model_identifier_column_set : Bool
  protein_model_set : Bool
deriving DecidableEq, Repr

/-- Modelled from the spec: the construction-time errors of
`compath_utils.exc` raised by `CompathManager.__init__`
(`CompathManagerPathwayModelError`, `CompathManagerProteinModelError`) — the
spec's `ConfigurationError` naming the missing field. -/
inductive ConfigurationError
  | pathwayModelError
  | proteinModelError
deriving DecidableEq, Repr

/-- Embeds `CompathManager.__init__`: raises if `pathway_model` is `None`, then if
`protein_model` is `None`.  The check of `pathway_model_identifier_column` is
commented out in the source (a TODO), so it is not performed here either. -/
def managerInit (c : ManagerConfig) : Except ConfigurationError Unit :=
  if c.pathway_model_set = false then .error .pathwayModelError
  else if c.protein_model_set = false then .error .proteinModelError
  else .ok ()

/-- The keys of `collections.Counter(xs)`, in order of first occurrence. -/
def firstOccKeys (xs : List String) : List String :=
  xs.foldl (fun acc x => if x ∈ acc then acc else acc ++ [x]) []

/-- Embeds `collections.Counter(xs).items()`: each element of `xs`, in order of first
occurrence, paired with its multiplicity in `xs`. -/
def counterItems (xs : List String) : List (String × Nat) :=
  (firstOccKeys xs).map (fun x => (x, xs.count x))

/-- Embeds `Counter.__getitem__`: the stored count, or `0` for a missing key. -/
def counterGet (c : List (String × Nat)) (k : String) : Nat :=
  match c.lookup k with
  | some v => v
  | none => 0

/-- Embeds `one_or_none` on a SQLAlchemy query result: `None` for no row, the row if
it is unique, `MultipleResultsFound` otherwise. -/
def one_or_none (l : List α) : Except PyError (Option α) :=
  match l with
  | [] => .ok none
  | [a] => .ok (some a)
  | _ :: _ :: _ => .error .multipleResultsFound

/-- Embeds `CompathManager.get_pathway_by_id`: filter the pathway table on the
designated identifier column and take `one_or_none`. -/
def get_pathway_by_id (store : Store) (pathway_id : String) :
    Except PyError (Option Pathway) :=
  one_or_none (store.pathways.filter (fun pw => pw.identifier == pathway_id))

/-- Embeds `CompathManager._query_proteins_in_hgnc_list`: the protein rows whose
`hgnc_symbol` is in the queried gene set. -/
def query_proteins_in_hgnc_list (store : Store) (gene_set : List String) :
    List Protein :=
  store.proteins.filter (fun p => decide (p.hgnc_symbol ∈ gene_set))

/-- One enrichment record of `query_gene_set`. -/
structure EnrichmentRecord where
  pathway_id : String
  pathway_name : String
  mapped_proteins : Nat
  pathway_size : Nat
  pathway_gene_set : Finset String
deriving DecidableEq

deriving instance DecidableEq for Except

/-- One iteration of the loop over `pathway_counter.items()` in
`query_gene_set`: look the pathway up by identifier and build its record; a
`None` lookup makes the subsequent `pathway.get_gene_set()` call fail with an
attribute error. -/
def enrichStep (store : Store) (pathway_id : String) (proteins_mapped : Nat) :
    Except PyError EnrichmentRecord :=
  match get_pathway_by_id store pathway_id with
  | .error e => .error e
  | .ok none => .error .attributeErrorNone
  | .ok (some pathway) =>
      .ok { pathway_id := pathway_id
            pathway_name := pathway.name
            mapped_proteins := proteins_mapped
            pathway_size := pathway.get_gene_set.card
            pathway_gene_set := pathway.get_gene_set }

/-- The loop of `query_gene_set` filling the dict `enrichment_results`; the
keys coming from `Counter.items()` are pairwise distinct, so the dict grows by
appending a fresh key each iteration. -/
def enrichLoop (store : Store) :
    List (String × Nat) → Except PyError (List (String × EnrichmentRecord))
  | [] => .ok []
  | (pathway_id, proteins_mapped) :: rest =>
      match enrichStep store pathway_id proteins_mapped with
      | .error e => .error e
      | .ok r =>
          match enrichLoop store rest with
          | .error e => .error e
          | .ok tail => .ok ((pathway_id, r) :: tail)

/-- The flattened list of pathway identifiers over all matched proteins
(`itt.chain(*pathways_lists)` in `query_gene_set`). -/
def matchedPathwayIds (store : Store) (gene_set : List String) : List String :=
  ((query_proteins_in_hgnc_list store gene_set).map Protein.get_pathways_ids).flatten

/-- Embeds `CompathManager.query_gene_set`: count, per pathway identifier, the matched
proteins mapped into it, and build the enrichment record for every identifier
with a positive count. -/
def query_gene_set (store : Store) (gene_set : List String) :
    Except PyError (List (String × EnrichmentRecord)) :=
  enrichLoop store (counterItems (matchedPathwayIds store gene_set))

/-- Insertion into a Python dict: replace the value at an existing key in
place (keeping its position), otherwise append the new key at the end. -/
def dictInsert (d : List (String × α)) (k : String) (v : α) : List (String × α) :=
  match d with
  | [] => [(k, v)]
  | (k₁, v₁) :: rest =>
      if k₁ == k then (k₁, v) :: rest else (k₁, v₁) :: dictInsert rest k v

/-- A Python dict comprehension keyed by pathway name. -/
def buildDict (f : Pathway → α) (l : List Pathway) : List (String × α) :=
  l.foldl (fun d pw => dictInsert d pw.name (f pw)) []

/-- Embeds `CompathManager.export_genesets`:
`{pathway.name: {protein.hgnc_symbol for protein in pathway.proteins} for pathway in ...}`. -/
def export_genesets (store : Store) : List (String × Finset String) :=
  buildDict (fun pw => (pw.proteins.map Protein.hgnc_symbol).toFinset) store.pathways

/-- Embeds `CompathManager.get_pathway_size_distribution`:
`{pathway.name: len(pathway.proteins) for pathway in pathways if pathway.proteins}`. -/
def get_pathway_size_distribution (store : Store) : List (String × Nat) :=
  buildDict (fun pw => pw.proteins.length)
    (store.pathways.filter (fun pw => !pw.proteins.isEmpty))

/-- Substring test, modelling `column.contains(query)` (SQL `LIKE %query%`). -/
def strContains (s q : String) : Bool :=
  s.data.tails.any (fun t => q.data.isPrefixOf t)

/-- An error raised by the backing store while executing a query; strict SQL
backends such as PostgreSQL reject `LIMIT` with a negative argument. -/
inductive SqlError
  | negativeLimit
deriving DecidableEq, Repr

/-- Modelled from the spec: the backing-store "query facility supporting ...
result-count limiting".  Executing `.limit(n).all()` truncates to `n` rows for
every nonnegative `n` on every backend; on a negative `n` the behavior is
backend-defined (SQLite returns all rows, PostgreSQL rejects the query), so it
is a parameter, constrained only to return a selection of the matched rows
whenever it succeeds. -/
structure LimitSemantics where
  applyLimit : Int → List Pathway → Except SqlError (List Pathway)
  applyLimit_nonneg : ∀ (n : Int) (l : List Pathway), 0 ≤ n →
    applyLimit n l = .ok (l.take n.toNat)
  applyLimit_sublist : ∀ (n : Int) (l res : List Pathway),
    applyLimit n l = .ok res → res.Sublist l

/-- The SQLite behavior of `LIMIT`: a negative argument returns all rows. -/
def sqliteLimit : LimitSemantics where
  applyLimit := fun n l => if n < 0 then .ok l else .ok (l.take n.toNat)
  applyLimit_nonneg := by
    intro n l h
    dsimp only
    rw [if_neg (by omega)]
  applyLimit_sublist := by
    intro n l res h
    dsimp only at h
    by_cases hn : n < 0
    · rw [if_pos hn] at h
      injection h with h
      rw [← h]
    · rw [if_neg hn] at h
      injection h with h
      rw [← h]
      exact List.take_sublist _ _

/-- The PostgreSQL behavior of `LIMIT`: a negative argument is an error. -/
def pgLimit : LimitSemantics where
  applyLimit := fun n l =>
    if n < 0 then .error .negativeLimit else .ok (l.take n.toNat)
  applyLimit_nonneg := by
    intro n l h
    dsimp only
    rw [if_neg (by omega)]
  applyLimit_sublist := by
    intro n l res h
    dsimp only at h
    by_cases hn : n < 0
    · rw [if_pos hn] at h
      cases h
    · rw [if_neg hn] at h
      injection h with h
      rw [← h]
      exact List.take_sublist _ _

/-- Embeds `CompathManager.query_pathway_by_name` over a backend `B`: filter
the pathway table on a substring name match, then `if limit:` — which in
Python is truthy for every non-`None`, nonzero integer, negatives included —
applies `.limit(limit)`, and `.all()` evaluates through the backend. -/
def query_pathway_by_name (B : LimitSemantics) (store : Store) (query : String)
    (limit : Option Int) : Except SqlError (List Pathway) :=
  let q := store.pathways.filter (fun pw => strContains pw.name query)
  match limit with
  | none => .ok q
  | some n => if n = 0 then .ok q else B.applyLimit n q

/-- Embeds `CompathManager.get_gene_distribution`: a `Counter` incremented once per
member protein of every pathway, skipping pathways with no proteins. -/
def get_gene_distribution (store : Store) : List (String × Nat) :=
  counterItems (((store.pathways.filter (fun pw => !pw.proteins.isEmpty)).map
    (fun pw => pw.proteins.map Protein.hgnc_symbol)).flatten)

/-- Round-trip example store: pathway "PW1" (id "1") with proteins
{TP53, BRCA1}, pathway "PW2" (id "2") with protein {TP53}. -/
def exTP53 : Protein := ⟨"TP53", ["1", "2"]⟩

/-- BRCA1 belongs only to pathway "1". -/
def exBRCA1 : Protein := ⟨"BRCA1", ["1"]⟩

/-- Pathway PW1 of the round-trip example. -/
def exPW1 : Pathway := ⟨"1", "PW1", [exTP53, exBRCA1]⟩

/-- Pathway PW2 of the round-trip example. -/
def exPW2 : Pathway := ⟨"2", "PW2", [exTP53]⟩

/-- The two-pathway store of the round-trip example. -/
def exampleStore : Store := ⟨[exPW1, exPW2], [exTP53, exBRCA1]⟩

/-- A store with a dangling membership: protein "G" claims pathway "X", but
the pathway table holds no row with identifier "X". -/
def danglingStore : Store := ⟨[], [⟨"G", ["X"]⟩]⟩

/-- A store with two pathways sharing the name "N": the first has no member
proteins, the second has one. -/
def collidingStore : Store :=
  ⟨[⟨"1", "N", []⟩, ⟨"2", "N", [⟨"G", ["2"]⟩]⟩], [⟨"G", ["2"]⟩]⟩

/-- A store holding a single pathway with no member proteins. -/
def emptyPathwayStore : Store := ⟨[⟨"1", "E", []⟩], []⟩

/-- Membership in the fold that computes `firstOccKeys`. -/
theorem mem_firstOccKeys_foldl (xs : List String) :
    ∀ (acc : List String) (y : String),
      (y ∈ xs.foldl (fun acc x => if x ∈ acc then acc else acc ++ [x]) acc)
        ↔ (y ∈ acc ∨ y ∈ xs) := by
  induction xs with
  | nil => intro acc y; simp
  | cons x xs ih =>
      intro acc y
      simp only [List.foldl_cons]
      by_cases hx : x ∈ acc
      · rw [if_pos hx, ih, List.mem_cons]
        constructor
        · tauto
        · rintro (h | rfl | h) <;> tauto
      · rw [if_neg hx, ih]
        simp only [List.mem_append, List.mem_singleton, List.mem_cons]
        tauto

/-- A string is a key of `Counter(xs)` iff it occurs in `xs`. -/
theorem mem_firstOccKeys (xs : List String) (y : String) :
    y ∈ firstOccKeys xs ↔ y ∈ xs := by
  unfold firstOccKeys
  rw [mem_firstOccKeys_foldl]
  simp

/-- The fold that computes `firstOccKeys` preserves `Nodup`. -/
theorem nodup_firstOccKeys_foldl (xs : List String) :
    ∀ acc : List String, acc.Nodup →
      (xs.foldl (fun acc x => if x ∈ acc then acc else acc ++ [x]) acc).Nodup := by
  induction xs with
  | nil => intro acc h; simpa using h
  | cons x xs ih =>
      intro acc h
      simp only [List.foldl_cons]
      by_cases hx : x ∈ acc
      · rw [if_pos hx]; exact ih acc h
      · rw [if_neg hx]
        refine ih _ ?_
        rw [List.nodup_append]
        refine ⟨h, List.nodup_singleton x, ?_⟩
        intro a ha hax
        rw [List.mem_singleton] at hax
        exact hx (hax ▸ ha)

/-- The keys of a `Counter` are pairwise distinct. -/
theorem nodup_firstOccKeys (xs : List String) : (firstOccKeys xs).Nodup :=
  nodup_firstOccKeys_foldl xs [] List.nodup_nil

/-- An item of `Counter(xs).items()` is an element of `xs` with its
multiplicity. -/
theorem counterItems_mem {xs : List String} {k : String} {c : Nat} :
    (k, c) ∈ counterItems xs ↔ k ∈ xs ∧ c = xs.count k := by
  unfold counterItems
  rw [List.mem_map]
  constructor
  · rintro ⟨x, hx, h⟩
    injection h with h1 h2
    subst h1
    subst h2
    exact ⟨(mem_firstOccKeys xs x).mp hx, rfl⟩
  · rintro ⟨hk, rfl⟩
    exact ⟨k, (mem_firstOccKeys xs k).mpr hk, rfl⟩

/-- Looking a key up in a list of pairs built by tagging each element with a
function of itself. -/
theorem lookup_map_pair (f : String → Nat) (k : String) :
    ∀ l : List String,
      (l.map (fun x => (x, f x))).lookup k = if k ∈ l then some (f k) else none := by
  intro l
  induction l with
  | nil => simp
  | cons x l ih =>
      by_cases h : k = x
      · subst h; simp
      · have hbeq : (k == x) = false := beq_eq_false_iff_ne.mpr h
        rw [List.map_cons, List.lookup_cons, hbeq]
        simp only [List.mem_cons]
        rw [ih]
        by_cases hk : k ∈ l
        · rw [if_pos hk, if_pos (Or.inr hk)]
        · rw [if_neg hk, if_neg (fun hor => hor.elim h hk)]

/-- Looking up a key of `Counter(xs)` returns its multiplicity in `xs`;
missing keys return `none`. -/
theorem counterItems_lookup (xs : List String) (k : String) :
    (counterItems xs).lookup k = if k ∈ xs then some (xs.count k) else none := by
  unfold counterItems
  rw [lookup_map_pair]
  by_cases h : k ∈ xs
  · rw [if_pos ((mem_firstOccKeys xs k).mpr h), if_pos h]
  · rw [if_neg (fun hc => h ((mem_firstOccKeys xs k).mp hc)), if_neg h]

/-- Getting `Counter(xs)[k]` returns the multiplicity of `k` in `xs`. -/
theorem counterGet_counterItems (xs : List String) (k : String) :
    counterGet (counterItems xs) k = xs.count k := by
  unfold counterGet
  rw [counterItems_lookup]
  by_cases h : k ∈ xs
  · rw [if_pos h]
  · rw [if_neg h, List.count_eq_zero.mpr h]

/-- Counting an element in a flattened list of duplicate-free lists counts the
inner lists that contain it. -/
theorem count_flatten_of_nodup :
    ∀ L : List (List String), (∀ s ∈ L, s.Nodup) → ∀ i : String,
      L.flatten.count i = (L.filter (fun s => decide (i ∈ s))).length := by
  intro L
  induction L with
  | nil => intro _ i; simp
  | cons s L ih =>
      intro h i
      rw [List.flatten_cons, List.count_append, List.filter_cons]
      have hrest := ih (fun t ht => h t (List.mem_cons_of_mem s ht)) i
      by_cases hi : i ∈ s
      · rw [List.count_eq_one_of_mem (h s (List.mem_cons_self s L)) hi,
            if_pos (by simpa using hi), List.length_cons, hrest]
        omega
      · rw [List.count_eq_zero.mpr hi, if_neg (by simpa using hi), hrest]
        omega

/-- Inversion for `one_or_none` returning a row. -/
theorem one_or_none_ok_some {l : List α} {a : α}
    (h : one_or_none l = .ok (some a)) : l = [a] := by
  cases l with
  | nil => simp [one_or_none] at h
  | cons x xs =>
      cases xs with
      | nil =>
          simp only [one_or_none, Except.ok.injEq, Option.some.injEq] at h
          rw [h]
      | cons y ys => simp [one_or_none] at h

/-- Inversion for `one_or_none` returning `None`. -/
theorem one_or_none_ok_none {l : List α}
    (h : one_or_none l = .ok none) : l = [] := by
  cases l with
  | nil => rfl
  | cons x xs =>
      cases xs with
      | nil => simp [one_or_none] at h
      | cons y ys => simp [one_or_none] at h

/-- C1: on the store holding exactly pathway "PW1" (id "1") with member
proteins {TP53, BRCA1} and pathway "PW2" (id "2") with member {TP53},
`query_gene_set({"TP53"})` returns exactly the mapping
`{"1" ↦ (id "1", name "PW1", mapped 1, size 2, gene set {TP53, BRCA1}),
  "2" ↦ (id "2", name "PW2", mapped 1, size 1, gene set {TP53})}`. -/
theorem query_gene_set_roundtrip : query_gene_set exampleStore ["TP53"] = .ok
    [("1", { pathway_id := "1", pathway_name := "PW1", mapped_proteins := 1,
             pathway_size := 2, pathway_gene_set := {"TP53", "BRCA1"} }),
     ("2", { pathway_id := "2", pathway_name := "PW2", mapped_proteins := 1,
             pathway_size := 1, pathway_gene_set := {"TP53"} })] := by
  decide

/-- C2 counterexample: constructing a manager whose designated pathway
identifier field is missing — but whose pathway and protein models are set —
succeeds; construction does proceed, no `ConfigurationError` is raised (the
identifier-column check is commented out in `CompathManager.__init__`). -/
theorem managerInit_missing_identifier_ok :
    managerInit { pathway_model_set := true,
                  pathway_model_identifier_column_set := false,
                  protein_model_set := true } = .ok () := by
  decide

/-- C2 amended: construction fails with a `ConfigurationError` naming the
missing field when the Pathway entity type or the Protein entity type is
missing, and succeeds when both are set; the designated pathway identifier
field is not checked at construction time. -/
theorem managerInit_missing_binding (c : ManagerConfig) :
    (c.pathway_model_set = false → managerInit c = .error .pathwayModelError)
    ∧ (c.pathway_model_set = true → c.protein_model_set = false →
        managerInit c = .error .proteinModelError)
    ∧ (c.pathway_model_set = true → c.protein_model_set = true →
        managerInit c = .ok ()) := by
  refine ⟨fun h => ?_, fun h1 h2 => ?_, fun h1 h2 => ?_⟩ <;>
    simp [managerInit, *]

/-- C2 witness: the three branches of `managerInit_missing_binding` at
concrete configurations. -/
theorem managerInit_missing_binding_witness :
    managerInit ⟨false, true, true⟩ = .error .pathwayModelError
    ∧ managerInit ⟨true, true, false⟩ = .error .proteinModelError
    ∧ managerInit ⟨true, true, true⟩ = .ok () :=
  ⟨(managerInit_missing_binding ⟨false, true, true⟩).1 rfl,
   (managerInit_missing_binding ⟨true, true, false⟩).2.1 rfl rfl,
   (managerInit_missing_binding ⟨true, true, true⟩).2.2 rfl rfl⟩

/-- Inversion for a successful `enrichStep`: the pathway row exists, carries
the looked-up identifier, and the record fields come from it. -/
theorem enrichStep_ok {store : Store} {pid : String} {cnt : Nat}
    {r : EnrichmentRecord} (h : enrichStep store pid cnt = .ok r) :
    ∃ pw, pw ∈ store.pathways ∧ pw.identifier = pid
      ∧ r = { pathway_id := pid, pathway_name := pw.name, mapped_proteins := cnt,
              pathway_size := pw.get_gene_set.card,
              pathway_gene_set := pw.get_gene_set } := by
  unfold enrichStep at h
  cases hq : get_pathway_by_id store pid with
  | error e => rw [hq] at h; simp at h
  | ok o =>
      rw [hq] at h
      cases o with
      | none => simp at h
      | some pw =>
          simp only [Except.ok.injEq] at h
          unfold get_pathway_by_id at hq
          have hfil := one_or_none_ok_some hq
          have hmem : pw ∈ store.pathways.filter
              (fun pw => pw.identifier == pid) := by
            rw [hfil]; exact List.mem_singleton.mpr rfl
          rw [List.mem_filter] at hmem
          exact ⟨pw, hmem.1, by simpa using hmem.2, h.symm⟩

/-- Inversion for a successful `enrichLoop`: every entry of the result comes
from an item of the counter, joined with an existing pathway row. -/
theorem enrichLoop_ok_mem {store : Store} :
    ∀ {items : List (String × Nat)} {results : List (String × EnrichmentRecord)},
      enrichLoop store items = .ok results →
      ∀ {pid : String} {r : EnrichmentRecord}, (pid, r) ∈ results →
        ∃ cnt pw, (pid, cnt) ∈ items ∧ pw ∈ store.pathways ∧ pw.identifier = pid
          ∧ r.mapped_proteins = cnt ∧ r.pathway_size = pw.get_gene_set.card
          ∧ r.pathway_gene_set = pw.get_gene_set ∧ r.pathway_name = pw.name := by
  intro items
  induction items with
  | nil =>
      intro results h pid r hr
      simp only [enrichLoop, Except.ok.injEq] at h
      rw [← h] at hr
      simp at hr
  | cons it rest ih =>
      intro results h pid r hr
      obtain ⟨pid₁, cnt₁⟩ := it
      unfold enrichLoop at h
      cases hs : enrichStep store pid₁ cnt₁ with
      | error e => rw [hs] at h; simp at h
      | ok r₁ =>
          rw [hs] at h
          cases ht : enrichLoop store rest with
          | error e => rw [ht] at h; simp at h
          | ok tail =>
              rw [ht] at h
              simp only [Except.ok.injEq] at h
              rw [← h] at hr
              rcases List.mem_cons.mp hr with heq | hmem
              · injection heq with h1 h2
                subst h1
                subst h2
                obtain ⟨pw, hpw, hid, hrec⟩ := enrichStep_ok hs
                subst hrec
                exact ⟨cnt₁, pw, List.mem_cons_self .., hpw, hid, rfl, rfl, rfl, rfl⟩
              · obtain ⟨cnt, pw, hi, hrest⟩ := ih ht hmem
                exact ⟨cnt, pw, List.mem_cons_of_mem _ hi, hrest⟩

/-- C4: every key of the mapping returned by `query_gene_set` has
`mapped_proteins ≥ 1` and is witnessed by a matched protein that maps into
that pathway (pathways with no matched protein are omitted), and the empty
gene set yields the empty mapping. -/
theorem query_gene_set_positive_counts (store : Store) (G : List String)
    (results : List (String × EnrichmentRecord))
    (hok : query_gene_set store G = .ok results) :
    (∀ pid r, (pid, r) ∈ results → 1 ≤ r.mapped_proteins
        ∧ ∃ p, p ∈ store.proteins ∧ p.hgnc_symbol ∈ G ∧ pid ∈ p.pathway_ids)
    ∧ (G = [] → results = []) := by
  constructor
  · intro pid r hr
    obtain ⟨cnt, pw, hitem, _, _, hmap, _⟩ := enrichLoop_ok_mem hok hr
    obtain ⟨hpid, hcnt⟩ := counterItems_mem.mp hitem
    constructor
    · rw [hmap, hcnt]
      exact List.count_pos_iff.mpr hpid
    · unfold matchedPathwayIds at hpid
      rw [List.mem_flatten] at hpid
      obtain ⟨l, hl, hpl⟩ := hpid
      rw [List.mem_map] at hl
      obtain ⟨p, hp, rfl⟩ := hl
      unfold query_proteins_in_hgnc_list at hp
      rw [List.mem_filter] at hp
      exact ⟨p, hp.1, of_decide_eq_true hp.2, hpl⟩
  · rintro rfl
    have hmt : query_proteins_in_hgnc_list store [] = [] := by
      unfold query_proteins_in_hgnc_list
      rw [List.filter_eq_nil_iff]
      intro p _
      simp
    unfold query_gene_set matchedPathwayIds at hok
    rw [hmt] at hok
    simp only [List.map_nil, List.flatten_nil, counterItems, firstOccKeys,
      List.foldl_nil, List.map_nil, enrichLoop, Except.ok.injEq] at hok
    exact hok.symm

/-- C4 witness: the record of pathway "1" in the round-trip example has a
positive count and a matching protein. -/
theorem query_gene_set_positive_counts_witness :
    1 ≤ ({ pathway_id := "1", pathway_name := "PW1", mapped_proteins := 1,
           pathway_size := 2,
           pathway_gene_set := {"TP53", "BRCA1"} } : EnrichmentRecord).mapped_proteins
    ∧ ∃ p, p ∈ exampleStore.proteins ∧ p.hgnc_symbol ∈ ["TP53"]
        ∧ "1" ∈ p.pathway_ids :=
  (query_gene_set_positive_counts exampleStore ["TP53"]
      [("1", { pathway_id := "1", pathway_name := "PW1", mapped_proteins := 1,
               pathway_size := 2, pathway_gene_set := {"TP53", "BRCA1"} }),
       ("2", { pathway_id := "2", pathway_name := "PW2", mapped_proteins := 1,
               pathway_size := 1, pathway_gene_set := {"TP53"} })]
      (by decide)).1 "1" _ (by decide)

/-- C3: in a well-formed store — each protein's pathway-identifier set is
duplicate-free, protein symbols are unique, and the membership relation is
consistent (a protein listing a pathway occurs among that pathway's member
symbols) — every record returned by `query_gene_set` satisfies
`mapped_proteins ≤ pathway_size`. -/
theorem query_gene_set_mapped_le_size (store : Store) (G : List String)
    (results : List (String × EnrichmentRecord))
    (hids : ∀ p ∈ store.proteins, p.pathway_ids.Nodup)
    (hsym : (store.proteins.map Protein.hgnc_symbol).Nodup)
    (hcons : ∀ p ∈ store.proteins, ∀ i ∈ p.pathway_ids, ∀ pw ∈ store.pathways,
        pw.identifier = i → p.hgnc_symbol ∈ pw.proteins.map Protein.hgnc_symbol)
    (hok : query_gene_set store G = .ok results) :
    ∀ pid r, (pid, r) ∈ results → r.mapped_proteins ≤ r.pathway_size := by
  intro pid r hr
  obtain ⟨cnt, pw, hitem, hpwmem, hid, hmap, hsize, _, _⟩ := enrichLoop_ok_mem hok hr
  obtain ⟨hpid, hcnt⟩ := counterItems_mem.mp hitem
  have hcount : (matchedPathwayIds store G).count pid
      = ((query_proteins_in_hgnc_list store G).filter
          (fun p => decide (pid ∈ p.pathway_ids))).length := by
    have hnds : ∀ s ∈ (query_proteins_in_hgnc_list store G).map Protein.get_pathways_ids,
        s.Nodup := by
      intro s hs
      rw [List.mem_map] at hs
      obtain ⟨p, hp, rfl⟩ := hs
      exact hids p ((List.filter_sublist _).subset hp)
    unfold matchedPathwayIds
    rw [count_flatten_of_nodup _ hnds pid, List.filter_map, List.length_map]
    rfl
  have hnodup : (((query_proteins_in_hgnc_list store G).filter
      (fun p => decide (pid ∈ p.pathway_ids))).map Protein.hgnc_symbol).Nodup := by
    have hsubl : ((query_proteins_in_hgnc_list store G).filter
        (fun p => decide (pid ∈ p.pathway_ids))).Sublist store.proteins :=
      (List.filter_sublist _).trans (List.filter_sublist _)
    exact List.Nodup.sublist (hsubl.map Protein.hgnc_symbol) hsym
  have hsubset : (((query_proteins_in_hgnc_list store G).filter
      (fun p => decide (pid ∈ p.pathway_ids))).map Protein.hgnc_symbol).toFinset
        ⊆ pw.get_gene_set := by
    intro y hy
    rw [List.mem_toFinset, List.mem_map] at hy
    obtain ⟨p, hp, rfl⟩ := hy
    rw [List.mem_filter] at hp
    have hpstore : p ∈ store.proteins := (List.filter_sublist _).subset hp.1
    have hpid' : pid ∈ p.pathway_ids := of_decide_eq_true hp.2
    have hmemsym := hcons p hpstore pid hpid' pw hpwmem hid
    unfold Pathway.get_gene_set
    rw [List.mem_toFinset]
    exact hmemsym
  have hcard : ((query_proteins_in_hgnc_list store G).filter
      (fun p => decide (pid ∈ p.pathway_ids))).length ≤ pw.get_gene_set.card := by
    calc ((query_proteins_in_hgnc_list store G).filter
          (fun p => decide (pid ∈ p.pathway_ids))).length
        = (((query_proteins_in_hgnc_list store G).filter
            (fun p => decide (pid ∈ p.pathway_ids))).map Protein.hgnc_symbol).length :=
          (List.length_map _ _).symm
      _ = (((query_proteins_in_hgnc_list store G).filter
            (fun p => decide (pid ∈ p.pathway_ids))).map Protein.hgnc_symbol).toFinset.card :=
          (List.toFinset_card_of_nodup hnodup).symm
      _ ≤ pw.get_gene_set.card := Finset.card_le_card hsubset
  rw [hmap, hsize, hcnt, hcount]
  exact hcard

/-- C3 witness: the hypotheses hold on the round-trip example store, and the
record of pathway "1" there satisfies the bound. -/
theorem query_gene_set_mapped_le_size_witness :
    ({ pathway_id := "1", pathway_name := "PW1", mapped_proteins := 1,
       pathway_size := 2,
       pathway_gene_set := {"TP53", "BRCA1"} } : EnrichmentRecord).mapped_proteins
      ≤ ({ pathway_id := "1", pathway_name := "PW1", mapped_proteins := 1,
           pathway_size := 2,
           pathway_gene_set := {"TP53", "BRCA1"} } : EnrichmentRecord).pathway_size :=
  query_gene_set_mapped_le_size exampleStore ["TP53"]
    [("1", { pathway_id := "1", pathway_name := "PW1", mapped_proteins := 1,
             pathway_size := 2, pathway_gene_set := {"TP53", "BRCA1"} }),
     ("2", { pathway_id := "2", pathway_name := "PW2", mapped_proteins := 1,
             pathway_size := 1, pathway_gene_set := {"TP53"} })]
    (by decide) (by decide) (by decide) (by decide) "1" _ (by decide)

/-- If no pathway row carries the identifier, `enrichStep` fails with the
attribute error coming from the `None` lookup. -/
theorem enrichStep_no_pathway {store : Store} {pid : String} {cnt : Nat}
    (h : ∀ pw ∈ store.pathways, pw.identifier ≠ pid) :
    enrichStep store pid cnt = .error .attributeErrorNone := by
  unfold enrichStep get_pathway_by_id
  have hfil : store.pathways.filter (fun pw => pw.identifier == pid) = [] := by
    rw [List.filter_eq_nil_iff]
    intro pw hpw
    simp [h pw hpw]
  rw [hfil]
  rfl

/-- With duplicate-free pathway identifiers, filtering the pathway table on an
identifier yields no row or exactly one. -/
theorem filter_identifier_short :
    ∀ l : List Pathway, (l.map Pathway.identifier).Nodup → ∀ pid : String,
      l.filter (fun pw => pw.identifier == pid) = []
        ∨ ∃ pw, l.filter (fun pw => pw.identifier == pid) = [pw] := by
  intro l
  induction l with
  | nil => intro _ pid; exact Or.inl rfl
  | cons pw l ih =>
      intro hn pid
      rw [List.map_cons, List.nodup_cons] at hn
      by_cases hp : pw.identifier = pid
      · refine Or.inr ⟨pw, ?_⟩
        rw [List.filter_cons, if_pos (by simpa using hp)]
        have : l.filter (fun pw => pw.identifier == pid) = [] := by
          rw [List.filter_eq_nil_iff]
          intro q hq hbeq
          refine hn.1 ?_
          rw [List.mem_map]
          exact ⟨q, hq, by rw [hp, ← show q.identifier = pid from by simpa using hbeq]⟩
        rw [this]
      · rw [List.filter_cons, if_neg (by simpa using hp)]
        exact ih hn.2 pid

/-- With duplicate-free pathway identifiers, `enrichStep` never fails with
`MultipleResultsFound`: it either succeeds or raises the attribute error. -/
theorem enrichStep_ok_or_attr {store : Store} {pid : String} {cnt : Nat}
    (hn : (store.pathways.map Pathway.identifier).Nodup) :
    enrichStep store pid cnt = .error .attributeErrorNone
      ∨ ∃ r, enrichStep store pid cnt = .ok r := by
  rcases filter_identifier_short store.pathways hn pid with hfil | ⟨pw, hfil⟩
  · left
    unfold enrichStep get_pathway_by_id
    rw [hfil]
    rfl
  · right
    refine ⟨{ pathway_id := pid, pathway_name := pw.name, mapped_proteins := cnt,
              pathway_size := pw.get_gene_set.card,
              pathway_gene_set := pw.get_gene_set }, ?_⟩
    unfold enrichStep get_pathway_by_id
    rw [hfil]
    rfl

/-- If every counter item either succeeds or raises the attribute error, and
some item raises it, the whole loop raises it (Python unwinds at the first
failing iteration; nothing is returned). -/
theorem enrichLoop_error_of_bad {store : Store} :
    ∀ items : List (String × Nat),
      (∀ pid cnt, (pid, cnt) ∈ items →
        enrichStep store pid cnt = .error .attributeErrorNone
          ∨ ∃ r, enrichStep store pid cnt = .ok r) →
      (∃ pid cnt, (pid, cnt) ∈ items
          ∧ enrichStep store pid cnt = .error .attributeErrorNone) →
      enrichLoop store items = .error .attributeErrorNone := by
  intro items
  induction items with
  | nil =>
      rintro _ ⟨pid, cnt, hmem, _⟩
      simp at hmem
  | cons it rest ih =>
      rintro hall ⟨pid, cnt, hmem, hbad⟩
      obtain ⟨pid₁, cnt₁⟩ := it
      unfold enrichLoop
      cases hs : enrichStep store pid₁ cnt₁ with
      | error e =>
          rcases hall pid₁ cnt₁ (List.mem_cons_self ..) with h1 | ⟨r, h1⟩
          · rw [h1] at hs
            injection hs with he
            rw [← he]
          · rw [h1] at hs
            cases hs
      | ok r₁ =>
          have hrest : enrichLoop store rest = .error .attributeErrorNone := by
            refine ih (fun p c hm => hall p c (List.mem_cons_of_mem _ hm)) ?_
            rcases List.mem_cons.mp hmem with heq | hm
            · injection heq with h1 h2
              subst h1
              subst h2
              rw [hbad] at hs
              cases hs
            · exact ⟨pid, cnt, hm, hbad⟩
          rw [hrest]

/-- C5 counterexample: on a store whose protein "G" references the absent
pathway identifier "X", `query_gene_set({"G"})` fails with the attribute error
from dereferencing the `None` lookup — not with a `NotFoundError`. -/
theorem query_gene_set_unresolved_not_notfound :
    query_gene_set danglingStore ["G"] = .error .attributeErrorNone
    ∧ query_gene_set danglingStore ["G"] ≠ .error .notFound := by
  constructor
  · decide
  · decide

/-- C5 amended: when the pathway identifiers are duplicate-free and some
identifier produced by the counting step resolves to no pathway row, the whole
`query_gene_set` call fails with the uncaught attribute error raised by
dereferencing the `None` lookup (no partial mapping is returned); the error is
this `AttributeError`, not a `NotFoundError`, which the code never raises. -/
theorem query_gene_set_unresolved_errors (store : Store) (G : List String)
    (hn : (store.pathways.map Pathway.identifier).Nodup) (pid : String)
    (hpid : pid ∈ matchedPathwayIds store G)
    (hnone : ∀ pw ∈ store.pathways, pw.identifier ≠ pid) :
    query_gene_set store G = .error .attributeErrorNone := by
  unfold query_gene_set
  refine enrichLoop_error_of_bad _ (fun p c _ => enrichStep_ok_or_attr hn) ?_
  exact ⟨pid, (matchedPathwayIds store G).count pid,
    counterItems_mem.mpr ⟨hpid, rfl⟩, enrichStep_no_pathway hnone⟩

/-- C5 witness: the amended statement applied to the dangling store. -/
theorem query_gene_set_unresolved_errors_witness :
    query_gene_set danglingStore ["G"] = .error .attributeErrorNone :=
  query_gene_set_unresolved_errors danglingStore ["G"] (by decide) "X"
    (by decide) (by decide)

/-- Looking up the inserted key finds the new value. -/
theorem lookup_dictInsert_self (d : List (String × α)) (k : String) (v : α) :
    (dictInsert d k v).lookup k = some v := by
  induction d with
  | nil => simp [dictInsert]
  | cons p rest ih =>
      obtain ⟨k₁, v₁⟩ := p
      unfold dictInsert
      by_cases h : k₁ = k
      · rw [if_pos (by simpa using h)]
        subst h
        simp
      · rw [if_neg (by simpa using h)]
        rw [List.lookup_cons, beq_eq_false_iff_ne.mpr (fun e => h e.symm)]
        exact ih

/-- Looking up a different key is unaffected by an insertion. -/
theorem lookup_dictInsert_ne (d : List (String × α)) (k k' : String) (v : α)
    (h : k' ≠ k) : (dictInsert d k v).lookup k' = d.lookup k' := by
  induction d with
  | nil =>
      simp only [dictInsert, List.lookup_cons, List.lookup_nil]
      rw [beq_eq_false_iff_ne.mpr h]
  | cons p rest ih =>
      obtain ⟨k₁, v₁⟩ := p
      unfold dictInsert
      by_cases h₁ : k₁ = k
      · have hbeq : (k' == k₁) = false :=
          beq_eq_false_iff_ne.mpr (fun e => h (e.trans h₁))
        rw [if_pos (by simpa using h₁), List.lookup_cons, List.lookup_cons, hbeq]
      · rw [if_neg (by simpa using h₁), List.lookup_cons, List.lookup_cons]
        cases hbeq : (k' == k₁) with
        | false => exact ih
        | true => rfl

/-- Looking a name up in the dict built by a comprehension over pathways finds
the value of the last pathway carrying that name, and falls back to the
initial dict otherwise. -/
theorem lookup_foldl_dictInsert (f : Pathway → α) (k : String) :
    ∀ (l : List Pathway) (d : List (String × α)),
      (l.foldl (fun d pw => dictInsert d pw.name (f pw)) d).lookup k
        = ((l.filter (fun pw => pw.name == k)).getLast?.map f).or (d.lookup k) := by
  intro l
  induction l with
  | nil => intro d; simp
  | cons pw l ih =>
      intro d
      rw [List.foldl_cons, ih]
      by_cases h : pw.name = k
      · rw [List.filter_cons, if_pos (by simpa using h), h, lookup_dictInsert_self,
            show pw :: l.filter (fun pw => pw.name == k)
              = [pw] ++ l.filter (fun pw => pw.name == k) from rfl,
            List.getLast?_append]
        cases hgl : (l.filter (fun pw => pw.name == k)).getLast? with
        | none => rfl
        | some x => rfl
      · rw [List.filter_cons, if_neg (by simpa using h),
            lookup_dictInsert_ne _ _ _ _ (fun e => h e.symm)]

/-- A dict comprehension keyed by pathway name maps a name to the value of the
last pathway with that name. -/
theorem lookup_buildDict (f : Pathway → α) (k : String) (l : List Pathway) :
    (buildDict f l).lookup k
      = (l.filter (fun pw => pw.name == k)).getLast?.map f := by
  unfold buildDict
  rw [lookup_foldl_dictInsert]
  simp

/-- Every pathway of the store contributes its name as a key of
`export_genesets`. -/
theorem export_genesets_key_exists (store : Store) (P : Pathway)
    (hP : P ∈ store.pathways) :
    ∃ s, (export_genesets store).lookup P.name = some s := by
  unfold export_genesets
  rw [lookup_buildDict]
  have hmem : P ∈ store.pathways.filter (fun pw => pw.name == P.name) :=
    List.mem_filter.mpr ⟨hP, by simp⟩
  have hne : store.pathways.filter (fun pw => pw.name == P.name) ≠ [] :=
    List.ne_nil_of_mem hmem
  cases hgl : (store.pathways.filter (fun pw => pw.name == P.name)).getLast? with
  | none => exact absurd (List.getLast?_eq_none_iff.mp hgl) hne
  | some L => exact ⟨(L.proteins.map Protein.hgnc_symbol).toFinset, rfl⟩

/-- C8: every pathway's name is a key of `export_genesets`, and the value
stored under a name is exactly the set of `hgnc_symbol` over the membership of
the last pathway in retrieval order carrying that name (last-pathway-wins). -/
theorem export_genesets_last_wins (store : Store) :
    (∀ P ∈ store.pathways, ∃ s, (export_genesets store).lookup P.name = some s)
    ∧ (∀ nm L, (store.pathways.filter (fun pw => pw.name == nm)).getLast? = some L →
        (export_genesets store).lookup nm
          = some ((L.proteins.map Protein.hgnc_symbol).toFinset)) := by
  constructor
  · exact fun P hP => export_genesets_key_exists store P hP
  · intro nm L hL
    unfold export_genesets
    rw [lookup_buildDict, hL]
    rfl

/-- C8 witness: on the round-trip store, "PW1" maps to the gene set of PW1. -/
theorem export_genesets_last_wins_witness :
    (export_genesets exampleStore).lookup "PW1"
      = some ((exPW1.proteins.map Protein.hgnc_symbol).toFinset) :=
  (export_genesets_last_wins exampleStore).2 "PW1" exPW1 (by decide)

/-- C9: every entry of `get_pathway_size_distribution` has a nonzero value
equal to the member count of a pathway with that name, and a name is a key iff
some pathway with that name has at least one member protein (zero-member
pathways are absent, not mapped to 0). -/
theorem get_pathway_size_distribution_spec (store : Store) :
    (∀ nm v, (get_pathway_size_distribution store).lookup nm = some v →
        v ≠ 0 ∧ ∃ pw, pw ∈ store.pathways ∧ pw.name = nm ∧ pw.proteins.length = v)
    ∧ (∀ nm, (∃ v, (get_pathway_size_distribution store).lookup nm = some v) ↔
        ∃ pw, pw ∈ store.pathways ∧ pw.name = nm ∧ pw.proteins ≠ []) := by
  have hlk : ∀ nm, (get_pathway_size_distribution store).lookup nm
      = ((store.pathways.filter (fun pw => !pw.proteins.isEmpty)).filter
          (fun pw => pw.name == nm)).getLast?.map (fun pw => pw.proteins.length) := by
    intro nm
    unfold get_pathway_size_distribution
    rw [lookup_buildDict]
  have hmem_of_getLast : ∀ nm pw,
      ((store.pathways.filter (fun pw => !pw.proteins.isEmpty)).filter
          (fun pw => pw.name == nm)).getLast? = some pw →
        pw ∈ store.pathways ∧ pw.proteins ≠ [] ∧ pw.name = nm := by
    intro nm pw hgl
    obtain ⟨ys, hys⟩ := List.getLast?_eq_some_iff.mp hgl
    have hmem : pw ∈ (store.pathways.filter (fun pw => !pw.proteins.isEmpty)).filter
        (fun pw => pw.name == nm) := by
      rw [hys]
      exact List.mem_append_right _ (List.mem_singleton.mpr rfl)
    rw [List.mem_filter, List.mem_filter] at hmem
    obtain ⟨⟨hpws, hne⟩, hnm⟩ := hmem
    refine ⟨hpws, ?_, by simpa using hnm⟩
    simpa using hne
  constructor
  · intro nm v hv
    rw [hlk] at hv
    cases hgl : ((store.pathways.filter (fun pw => !pw.proteins.isEmpty)).filter
        (fun pw => pw.name == nm)).getLast? with
    | none => rw [hgl] at hv; cases hv
    | some pw =>
        rw [hgl] at hv
        injection hv with hv'
        obtain ⟨hpws, hne, hnm⟩ := hmem_of_getLast nm pw hgl
        refine ⟨?_, pw, hpws, hnm, hv'⟩
        rw [← hv']
        intro h0
        exact hne (List.length_eq_zero.mp h0)
  · intro nm
    constructor
    · rintro ⟨v, hv⟩
      rw [hlk] at hv
      cases hgl : ((store.pathways.filter (fun pw => !pw.proteins.isEmpty)).filter
          (fun pw => pw.name == nm)).getLast? with
      | none => rw [hgl] at hv; cases hv
      | some pw =>
          obtain ⟨hpws, hne, hnm⟩ := hmem_of_getLast nm pw hgl
          exact ⟨pw, hpws, hnm, hne⟩
    · rintro ⟨pw, hpw, hnm, hne⟩
      rw [hlk]
      have hmem : pw ∈ (store.pathways.filter (fun pw => !pw.proteins.isEmpty)).filter
          (fun pw => pw.name == nm) :=
        List.mem_filter.mpr
          ⟨List.mem_filter.mpr ⟨hpw, by simpa using hne⟩, by simpa using hnm⟩
      have hnn := List.ne_nil_of_mem hmem
      cases hgl : ((store.pathways.filter (fun pw => !pw.proteins.isEmpty)).filter
          (fun pw => pw.name == nm)).getLast? with
      | none => exact absurd (List.getLast?_eq_none_iff.mp hgl) hnn
      | some L => exact ⟨L.proteins.length, rfl⟩

/-- C9 witness: the entry of "PW1" on the round-trip store has value 2, which
is nonzero and is PW1's member count. -/
theorem get_pathway_size_distribution_spec_witness :
    (2 : Nat) ≠ 0 ∧ ∃ pw, pw ∈ exampleStore.pathways ∧ pw.name = "PW1"
      ∧ pw.proteins.length = 2 :=
  (get_pathway_size_distribution_spec exampleStore).1 "PW1" 2 (by decide)

/-- C10 counterexample: in a store where the zero-member pathway "1" named "N"
is followed by a one-member pathway "2" also named "N", `export_genesets` maps
"N" to {"G"}, not to the empty set, although the zero-member pathway is in the
store. -/
theorem export_genesets_zero_member_collision :
    (⟨"1", "N", []⟩ : Pathway) ∈ collidingStore.pathways
    ∧ Pathway.proteins ⟨"1", "N", []⟩ = []
    ∧ (export_genesets collidingStore).lookup "N" ≠ some (∅ : Finset String)
    ∧ (export_genesets collidingStore).lookup "N" = some ({"G"} : Finset String) := by
  refine ⟨by decide, rfl, by decide, by decide⟩

/-- C10 amended: a zero-member pathway's name is always a key of
`export_genesets` (in contrast to `get_pathway_size_distribution`); it maps to
the empty set whenever that pathway is the last one carrying its name — in
particular whenever no other pathway shares the name — while
`get_pathway_size_distribution` omits the name entirely when every pathway
carrying it has no members. -/
theorem export_genesets_empty_pathway (store : Store) (P : Pathway)
    (hP : P ∈ store.pathways) (hempty : P.proteins = []) :
    (∃ s, (export_genesets store).lookup P.name = some s)
    ∧ ((store.pathways.filter (fun pw => pw.name == P.name)).getLast? = some P →
        (export_genesets store).lookup P.name = some (∅ : Finset String))
    ∧ ((∀ pw ∈ store.pathways, pw.name = P.name → pw.proteins = []) →
        (get_pathway_size_distribution store).lookup P.name = none) := by
  refine ⟨export_genesets_key_exists store P hP, ?_, ?_⟩
  · intro hL
    unfold export_genesets
    rw [lookup_buildDict, hL]
    simp [hempty]
  · intro hall
    unfold get_pathway_size_distribution
    rw [lookup_buildDict]
    have hnil : (store.pathways.filter (fun pw => !pw.proteins.isEmpty)).filter
        (fun pw => pw.name == P.name) = [] := by
      rw [List.filter_eq_nil_iff]
      intro pw hpw hbeq
      rw [List.mem_filter] at hpw
      have hnm : pw.name = P.name := by simpa using hbeq
      have : pw.proteins = [] := hall pw hpw.1 hnm
      rw [this] at hpw
      simpa using hpw.2
    rw [hnil]
    rfl

/-- C10 witness: on the single-empty-pathway store, "E" is exported with the
empty gene set while the size distribution omits it. -/
theorem export_genesets_empty_pathway_witness :
    (export_genesets emptyPathwayStore).lookup "E" = some (∅ : Finset String)
    ∧ (get_pathway_size_distribution emptyPathwayStore).lookup "E" = none :=
  ⟨(export_genesets_empty_pathway emptyPathwayStore ⟨"1", "E", []⟩
      (by decide) rfl).2.1 (by decide),
   (export_genesets_empty_pathway emptyPathwayStore ⟨"1", "E", []⟩
      (by decide) rfl).2.2 (by decide)⟩

/-- C6: when each pathway's member symbols are duplicate-free (the membership
relation is a set), `get_gene_distribution` counts, for each gene symbol, the
number of pathways whose membership contains it — each pathway at most once —
and a symbol is a key iff it occurs in some pathway; empty pathways contribute
nothing. -/
theorem get_gene_distribution_counts (store : Store) (g : String)
    (h : ∀ pw ∈ store.pathways, (pw.proteins.map Protein.hgnc_symbol).Nodup) :
    counterGet (get_gene_distribution store) g
      = (store.pathways.filter
          (fun pw => decide (g ∈ pw.proteins.map Protein.hgnc_symbol))).length
    ∧ ((∃ v, (get_gene_distribution store).lookup g = some v) ↔
        ∃ pw ∈ store.pathways, g ∈ pw.proteins.map Protein.hgnc_symbol) := by
  have hnds : ∀ s ∈ (store.pathways.filter (fun pw => !pw.proteins.isEmpty)).map
      (fun pw => pw.proteins.map Protein.hgnc_symbol), s.Nodup := by
    intro s hs
    rw [List.mem_map] at hs
    obtain ⟨pw, hpw, rfl⟩ := hs
    exact h pw ((List.filter_sublist _).subset hpw)
  constructor
  · unfold get_gene_distribution
    rw [counterGet_counterItems, count_flatten_of_nodup _ hnds g, List.filter_map,
        List.length_map, List.filter_filter]
    refine congrArg List.length (List.filter_congr ?_)
    intro pw _
    by_cases hg : g ∈ pw.proteins.map Protein.hgnc_symbol
    · have hpne : pw.proteins ≠ [] := by
        intro h0
        rw [h0] at hg
        simp at hg
      simp [Function.comp, hg, List.isEmpty_eq_false.mpr hpne]
    · simp [Function.comp, hg]
  · unfold get_gene_distribution
    rw [counterItems_lookup]
    constructor
    · rintro ⟨v, hv⟩
      by_cases hmem : g ∈ ((store.pathways.filter (fun pw => !pw.proteins.isEmpty)).map
          (fun pw => pw.proteins.map Protein.hgnc_symbol)).flatten
      · rw [List.mem_flatten] at hmem
        obtain ⟨s, hs, hgs⟩ := hmem
        rw [List.mem_map] at hs
        obtain ⟨pw, hpw, rfl⟩ := hs
        exact ⟨pw, (List.filter_sublist _).subset hpw, hgs⟩
      · rw [if_neg hmem] at hv
        cases hv
    · rintro ⟨pw, hpw, hg⟩
      have hmem : g ∈ ((store.pathways.filter (fun pw => !pw.proteins.isEmpty)).map
          (fun pw => pw.proteins.map Protein.hgnc_symbol)).flatten := by
        rw [List.mem_flatten]
        refine ⟨pw.proteins.map Protein.hgnc_symbol, ?_, hg⟩
        rw [List.mem_map]
        refine ⟨pw, ?_, rfl⟩
        rw [List.mem_filter]
        refine ⟨hpw, ?_⟩
        have hpne : pw.proteins ≠ [] := by
          intro h0
          rw [h0] at hg
          simp at hg
        simpa using List.isEmpty_eq_false.mpr hpne
      rw [if_pos hmem]
      exact ⟨_, rfl⟩

/-- C6 witness: in the round-trip store, "TP53" occurs in both pathways. -/
theorem get_gene_distribution_counts_witness :
    counterGet (get_gene_distribution exampleStore) "TP53"
      = (exampleStore.pathways.filter
          (fun pw => decide ("TP53" ∈ pw.proteins.map Protein.hgnc_symbol))).length :=
  (get_gene_distribution_counts exampleStore "TP53" (by decide)).1

/-- C7 counterexample: a negative limit is truthy for Python's `if limit:`,
so `.limit(-1)` is applied; on a strict backend (PostgreSQL semantics) the
query is rejected rather than returning the full match list, while SQLite
returns all rows — the full-list behavior for "not positive" limits is
backend-defined, not guaranteed by the code. -/
theorem query_pathway_by_name_negative_limit :
    query_pathway_by_name pgLimit exampleStore "PW" (some (-1))
        = .error .negativeLimit
    ∧ query_pathway_by_name pgLimit exampleStore "PW" (some (-1))
        ≠ .ok (exampleStore.pathways.filter (fun pw => strContains pw.name "PW"))
    ∧ query_pathway_by_name sqliteLimit exampleStore "PW" (some (-1))
        = .ok (exampleStore.pathways.filter (fun pw => strContains pw.name "PW")) := by
  refine ⟨by decide, by decide, by decide⟩

/-- C7 amended: over any admissible backend, `query_pathway_by_name` returns
pathways of the store whose name contains the query; a positive limit
truncates the match list to that many rows; an absent or zero limit returns
the full match list; a negative limit is passed to the backend's `LIMIT`,
whose outcome is backend-defined (all rows on SQLite, an error on strict
backends) — the full match list is not guaranteed then; on the round-trip
store, `query_pathway_by_name("PW", limit := 1)` returns exactly the one
pathway PW1. -/
theorem query_pathway_by_name_spec (B : LimitSemantics) (store : Store)
    (q : String) (limit : Option Int) :
    (∀ res, query_pathway_by_name B store q limit = .ok res →
        ∀ pw ∈ res, pw ∈ store.pathways ∧ strContains pw.name q = true)
    ∧ (∀ n : Int, limit = some n → 0 < n →
        query_pathway_by_name B store q limit
          = .ok ((store.pathways.filter (fun pw => strContains pw.name q)).take n.toNat))
    ∧ (limit = none ∨ limit = some 0 →
        query_pathway_by_name B store q limit
          = .ok (store.pathways.filter (fun pw => strContains pw.name q)))
    ∧ (∀ n : Int, limit = some n → n < 0 →
        query_pathway_by_name B store q limit
          = B.applyLimit n (store.pathways.filter (fun pw => strContains pw.name q)))
    ∧ query_pathway_by_name B exampleStore "PW" (some 1) = .ok [exPW1] := by
  refine ⟨?_, ?_, ?_, ?_, ?_⟩
  · intro res hres pw hpw
    have hsubl : res.Sublist (store.pathways.filter (fun pw => strContains pw.name q)) := by
      cases limit with
      | none =>
          have hres' : (Except.ok (store.pathways.filter
              (fun pw => strContains pw.name q)) : Except SqlError (List Pathway))
                = .ok res := hres
          injection hres' with h
          rw [h]
      | some n =>
          have hres' : (if n = 0 then
              .ok (store.pathways.filter (fun pw => strContains pw.name q))
            else B.applyLimit n (store.pathways.filter
              (fun pw => strContains pw.name q))) = Except.ok res := hres
          by_cases hn : n = 0
          · rw [if_pos hn] at hres'
            injection hres' with h
            rw [← h]
          · rw [if_neg hn] at hres'
            exact B.applyLimit_sublist n _ res hres'
    have hmem := hsubl.subset hpw
    rw [List.mem_filter] at hmem
    exact hmem
  · rintro n rfl hn
    show (if n = 0 then
        .ok (store.pathways.filter (fun pw => strContains pw.name q))
      else B.applyLimit n (store.pathways.filter (fun pw => strContains pw.name q)))
        = .ok ((store.pathways.filter (fun pw => strContains pw.name q)).take n.toNat)
    rw [if_neg (by omega), B.applyLimit_nonneg n _ (le_of_lt hn)]
  · rintro (rfl | rfl)
    · rfl
    · show (if (0 : Int) = 0 then
          .ok (store.pathways.filter (fun pw => strContains pw.name q))
        else B.applyLimit 0 (store.pathways.filter (fun pw => strContains pw.name q)))
          = .ok (store.pathways.filter (fun pw => strContains pw.name q))
      rw [if_pos rfl]
  · rintro n rfl hn
    show (if n = 0 then
        .ok (store.pathways.filter (fun pw => strContains pw.name q))
      else B.applyLimit n (store.pathways.filter (fun pw => strContains pw.name q)))
        = B.applyLimit n (store.pathways.filter (fun pw => strContains pw.name q))
    rw [if_neg (by omega)]
  · show (if (1 : Int) = 0 then
        .ok (exampleStore.pathways.filter (fun pw => strContains pw.name "PW"))
      else B.applyLimit 1 (exampleStore.pathways.filter
        (fun pw => strContains pw.name "PW")))
        = .ok [exPW1]
    rw [if_neg (by omega), B.applyLimit_nonneg 1 _ (by omega)]
    have hfil : exampleStore.pathways.filter (fun pw => strContains pw.name "PW")
        = [exPW1, exPW2] := by decide
    rw [hfil]
    rfl

/-- C7 witness: the general conjuncts at concrete inputs — membership of PW1,
truncation at limit 1, full list at limit `None`, and the backend `LIMIT`
applied at limit -1. -/
theorem query_pathway_by_name_spec_witness :
    (exPW1 ∈ exampleStore.pathways ∧ strContains exPW1.name "PW" = true)
    ∧ query_pathway_by_name sqliteLimit exampleStore "PW" (some 1)
        = .ok ((exampleStore.pathways.filter
            (fun pw => strContains pw.name "PW")).take (1 : Int).toNat)
    ∧ query_pathway_by_name pgLimit exampleStore "PW" none
        = .ok (exampleStore.pathways.filter (fun pw => strContains pw.name "PW"))
    ∧ query_pathway_by_name pgLimit exampleStore "PW" (some (-1))
        = pgLimit.applyLimit (-1) (exampleStore.pathways.filter
            (fun pw => strContains pw.name "PW")) :=
  ⟨(query_pathway_by_name_spec sqliteLimit exampleStore "PW" none).1
      (exampleStore.pathways.filter (fun pw => strContains pw.name "PW")) rfl
      exPW1 (by decide),
   (query_pathway_by_name_spec sqliteLimit exampleStore "PW" (some 1)).2.1
      1 rfl (by omega),
   (query_pathway_by_name_spec pgLimit exampleStore "PW" none).2.2.1 (Or.inl rfl),
   (query_pathway_by_name_spec pgLimit exampleStore "PW" (some (-1))).2.2.2.1
      (-1) rfl (by omega)⟩

end Compath
